import Mathlib

/-!
Verification development for the TikTok-Transcriber repository.

The definitions below are a shallow embedding of the Python source:

* `app/api_key_manager.py` : the credential pool (`APIKeyManager`);
* `app/long_processor.py`  : rate limiter, audio chunk splitter,
  chunked transcription loop and long-pipeline summarization;
* `app/processor.py`       : retry strategy, audio extraction and the
  short (single-shot) processing pipeline.

Timestamps are modelled as natural numbers counting seconds from an
epoch that lies strictly after `datetime.min`; the calendar date of a
timestamp is its day number `t / 86400`, and the `seconds` field of a
Python `timedelta` over a nonnegative difference `d` is `d % 86400`.
Stateful Python methods become explicit state-passing functions.
-/

namespace TTT

/-! ## Key pool (`app/api_key_manager.py`) -/

def MAX_REQUESTS_PER_DAY : Nat := 50

def ERROR_THRESHOLD : Nat := 3

def COOLDOWN_PERIOD : Nat := 60

def secondsPerDay : Nat := 86400

/-- One entry of `APIKeyManager.key_states`.  `last_used`, `quota_reset`
and `last_error` are `None` (here `none`) until first set. -/
structure KeyState where
  last_used : Option Nat
  error_count : Nat
  quota_reset : Option Nat
  available : Bool
  requests_today : Nat
  last_error : Option Nat
deriving Repr, DecidableEq

/-- Fresh state assigned to every key in `APIKeyManager.__init__`. -/
def initKeyState : KeyState :=
  { last_used := none, error_count := 0, quota_reset := none,
    available := true, requests_today := 0, last_error := none }

/-- Day number of a timestamp (`datetime.date`). -/
def dateOf (t : Nat) : Nat := t / secondsPerDay

/-- The `seconds` component of a Python `timedelta` built from a
nonnegative difference of `d` seconds. -/
def tdSeconds (d : Nat) : Nat := d % secondsPerDay

/-- The rollover test of `_is_key_available`:
`quota_reset is None or now.date() > quota_reset.date()`. -/
def needsRollover (now : Nat) (s : KeyState) : Bool :=
  match s.quota_reset with
  | none => true
  | some qr => decide (dateOf qr < dateOf now)

/-- The daily rollover normalization at the top of
`_is_key_available`. -/
def rolloverFix (now : Nat) (s : KeyState) : KeyState :=
  if needsRollover now s then
    { s with quota_reset := some now, requests_today := 0,
             error_count := 0, available := true }
  else s

/-- The quota, cooldown and availability checks of `_is_key_available`,
run on the already rollover-normalized state. -/
def availCheck (now : Nat) (s1 : KeyState) : Bool × KeyState :=
  if MAX_REQUESTS_PER_DAY ≤ s1.requests_today then (false, s1)
  else if ERROR_THRESHOLD ≤ s1.error_count then
    match s1.last_error with
    | some le =>
        if tdSeconds (now - le) < COOLDOWN_PERIOD then (false, s1)
        else (s1.available, { s1 with error_count := 0 })
    | none => (s1.available, { s1 with error_count := 0 })
  else (s1.available, s1)

/-- `APIKeyManager._is_key_available`.  Returns the boolean result
together with the (possibly normalized) state, since the Python method
mutates the entry it inspects. -/
def is_key_available (now : Nat) (s : KeyState) : Bool × KeyState :=
  availCheck now (rolloverFix now s)

/-- The availability pass of `get_next_key`: `_is_key_available` is run
on every key in order, each call normalizing that key in place. -/
def checkedPool (now : Nat) (pool : List KeyState) : List (Bool × KeyState) :=
  pool.map (is_key_available now)

/-- `self.key_states` after the availability pass. -/
def poolAfterCheck (now : Nat) (pool : List KeyState) : List KeyState :=
  (checkedPool now pool).map Prod.snd

/-- Indices of the keys that the availability pass accepted
(`available_keys` in `get_next_key`, keys identified by position). -/
def availableIndices (now : Nat) (pool : List KeyState) : List Nat :=
  ((checkedPool now pool).enum.filter (fun p => p.2.1)).map Prod.fst

/-- `last_used or datetime.min`, as an order-embedding into `Nat`:
`datetime.min` maps to `0`, a genuine timestamp `t` (which lies strictly
after `datetime.min`) maps to `t + 1`. -/
def luVal : Option Nat → Nat
  | none => 0
  | some t => t + 1

/-- The sort key of `get_next_key`:
`(requests_today, last_used or datetime.min)`. -/
def selKey (s : KeyState) : Nat × Nat := (s.requests_today, luVal s.last_used)

/-- Strict lexicographic order on sort keys, as used by Python tuple
comparison inside `min`. -/
def tupLt (a b : Nat × Nat) : Prop :=
  a.1 < b.1 ∨ (a.1 = b.1 ∧ a.2 < b.2)

instance (a b : Nat × Nat) : Decidable (tupLt a b) := by
  unfold tupLt; infer_instance

/-- Reflexive lexicographic order on sort keys. -/
def tupLe (a b : Nat × Nat) : Prop :=
  a.1 < b.1 ∨ (a.1 = b.1 ∧ a.2 ≤ b.2)

/-- One comparison step of Python `min`: the accumulator is replaced
only on a strictly smaller key, so the first minimum wins. -/
def minStep (f : α → Nat × Nat) (acc y : α) : α :=
  if tupLt (f y) (f acc) then y else acc

/-- Python `min(xs, key=f)`: the first element with the smallest key,
`none` on an empty list. -/
def minByKey (f : α → Nat × Nat) : List α → Option α
  | [] => none
  | x :: xs => some (xs.foldl (minStep f) x)

/-- `APIKeyManager.get_next_key`, keys identified by their index in
`api_keys`.  Returns the selected index (or `none`) and the updated
pool. -/
def get_next_key (now : Nat) (pool : List KeyState) :
    Option Nat × List KeyState :=
  match minByKey (fun i => selKey ((poolAfterCheck now pool).getD i initKeyState))
      (availableIndices now pool) with
  | none => (none, poolAfterCheck now pool)
  | some i =>
      (some i, (poolAfterCheck now pool).set i
        { (poolAfterCheck now pool).getD i initKeyState with
            last_used := some now,
            requests_today :=
              ((poolAfterCheck now pool).getD i initKeyState).requests_today + 1 })

/-- ASCII lowercasing of one character, the fragment of `str.lower`
exercised by the source (the needle matched is pure ASCII). -/
def charLower (c : Char) : Char :=
  if 65 ≤ c.toNat ∧ c.toNat ≤ 90 then Char.ofNat (c.toNat + 32) else c

/-- Character sequence of `msg.lower()`. -/
def lowerData (s : String) : List Char := s.data.map charLower

/-- Contiguous-substring test, Python `needle in hay`. -/
def listInfix (needle hay : List Char) : Bool :=
  (List.range (hay.length + 1)).any (fun i => needle.isPrefixOf (hay.drop i))

/-- `"quota exceeded" in error_message.lower()`. -/
def containsQuotaExceeded (msg : String) : Bool :=
  listInfix ("quota exceeded".data) (lowerData msg)

/-- `APIKeyManager.mark_key_error` on a single key state. -/
def mark_key_error (now : Nat) (msg : String) (s : KeyState) : KeyState :=
  let s1 := { s with error_count := s.error_count + 1, last_error := some now }
  if containsQuotaExceeded msg then
    { s1 with available := false, requests_today := MAX_REQUESTS_PER_DAY }
  else s1

/-- `APIKeyManager.get_key_status`.  The Python dict display evaluates
`_is_key_available(key)` first (mutating the entry), then reads the
remaining fields from the mutated entry; the method therefore also
returns the updated pool. -/
def get_key_status (now : Nat) (pool : List KeyState) :
    List (Bool × Nat × Nat × Option Nat) × List KeyState :=
  (pool.map (fun s =>
      let r := is_key_available now s
      (r.1, r.2.requests_today, r.2.error_count, r.2.last_used)),
   pool.map (fun s => (is_key_available now s).2))

/-- Repeated credential selection against a pool at a fixed time:
returns the list of selected indices and the final pool. -/
def selectN (now : Nat) : Nat → List KeyState → List (Option Nat) × List KeyState
  | 0, pool => ([], pool)
  | n + 1, pool =>
      let r := get_next_key now pool
      let rest := selectN now n r.2
      (r.1 :: rest.1, rest.2)

/-- Timestamp used in the two-key scenario. -/
def demoNow : Nat := 1000

/-- Two-key scenario pool: key A (index 0) already at its daily cap of
50 requests, key B (index 1) at 45 requests, both with todays date as
their quota-reset marker. -/
def demoPool : List KeyState :=
  [{ initKeyState with requests_today := 50, quota_reset := some 1000 },
   { initKeyState with requests_today := 45, quota_reset := some 1000 }]

theorem tupLe_refl (a : Nat × Nat) : tupLe a a := by
  unfold tupLe; omega

theorem tupLe_trans {a b c : Nat × Nat} (h1 : tupLe a b) (h2 : tupLe b c) :
    tupLe a c := by
  unfold tupLe at *; omega

theorem tupLe_of_not_tupLt {a b : Nat × Nat} (h : ¬ tupLt a b) : tupLe b a := by
  unfold tupLt at h; unfold tupLe; omega

theorem tupLe_of_tupLt {a b : Nat × Nat} (h : tupLt a b) : tupLe a b := by
  unfold tupLt at h; unfold tupLe; omega

theorem minFold_spec (f : α → Nat × Nat) :
    ∀ (xs : List α) (a : α),
      (xs.foldl (minStep f) a = a ∨ xs.foldl (minStep f) a ∈ xs) ∧
      tupLe (f (xs.foldl (minStep f) a)) (f a) ∧
      ∀ y ∈ xs, tupLe (f (xs.foldl (minStep f) a)) (f y) := by
  intro xs
  induction xs with
  | nil => intro a; exact ⟨Or.inl rfl, tupLe_refl _, by simp⟩
  | cons x xs ih =>
      intro a
      rw [List.foldl_cons]
      by_cases hlt : tupLt (f x) (f a)
      · have hms : minStep f a x = x := by unfold minStep; rw [if_pos hlt]
        rw [hms]
        obtain ⟨hmem, hle, hall⟩ := ih x
        refine ⟨?_, ?_, ?_⟩
        · rcases hmem with h | h
          · exact Or.inr (by rw [h]; exact List.mem_cons_self _ _)
          · exact Or.inr (List.mem_cons_of_mem x h)
        · exact tupLe_trans hle (tupLe_of_tupLt hlt)
        · intro y hy
          rcases List.mem_cons.mp hy with h | h
          · rw [h]; exact hle
          · exact hall y h
      · have hms : minStep f a x = a := by unfold minStep; rw [if_neg hlt]
        rw [hms]
        obtain ⟨hmem, hle, hall⟩ := ih a
        refine ⟨?_, ?_, ?_⟩
        · rcases hmem with h | h
          · exact Or.inl h
          · exact Or.inr (List.mem_cons_of_mem x h)
        · exact hle
        · intro y hy
          rcases List.mem_cons.mp hy with h | h
          · rw [h]; exact tupLe_trans hle (tupLe_of_not_tupLt hlt)
          · exact hall y h

theorem minByKey_spec (f : α → Nat × Nat) (xs : List α) (r : α)
    (h : minByKey f xs = some r) : r ∈ xs ∧ ∀ y ∈ xs, tupLe (f r) (f y) := by
  match xs with
  | [] => simp [minByKey] at h
  | x :: xs =>
      unfold minByKey at h
      obtain ⟨hmem, hle, hall⟩ := minFold_spec f xs x
      have hr : xs.foldl (minStep f) x = r := by
        simpa using h
      rw [hr] at hmem hle hall
      constructor
      · rcases hmem with h1 | h1
        · rw [h1]; exact List.mem_cons_self _ _
        · exact List.mem_cons_of_mem x h1
      · intro y hy
        rcases List.mem_cons.mp hy with h1 | h1
        · subst h1; exact hle
        · exact hall y h1

theorem minByKey_eq_none_iff (f : α → Nat × Nat) (xs : List α) :
    minByKey f xs = none ↔ xs = [] := by
  cases xs <;> simp [minByKey]

theorem get_next_key_fst (now : Nat) (pool : List KeyState) :
    (get_next_key now pool).1 =
      minByKey (fun i => selKey ((poolAfterCheck now pool).getD i initKeyState))
        (availableIndices now pool) := by
  unfold get_next_key
  split <;> simp_all

/-- Claim C1: `get_next_key` filters the known credentials through the
availability rules, returns `none` exactly when no credential is
available, and otherwise returns an available credential minimizing the
tuple `(requests_today, last_used)` with an unset `last_used` treated as
earliest (the tuple being read off the lazily normalized pool).  In the
two-key scenario `demoPool` (key A at its daily cap of 50, key B at 45),
repeated selection returns key B five times and never key A, after which
B has also reached its cap and selection returns `none`. -/
theorem C1_get_next_key_selection :
    (∀ now pool, (get_next_key now pool).1 = none ↔
        availableIndices now pool = []) ∧
    (∀ now pool i, (get_next_key now pool).1 = some i →
        i ∈ availableIndices now pool ∧
        ∀ j ∈ availableIndices now pool,
          tupLe (selKey ((poolAfterCheck now pool).getD i initKeyState))
                (selKey ((poolAfterCheck now pool).getD j initKeyState))) ∧
    (selectN demoNow 6 demoPool).1 =
      [some 1, some 1, some 1, some 1, some 1, none] := by
  refine ⟨?_, ?_, by decide⟩
  · intro now pool
    rw [get_next_key_fst]
    exact minByKey_eq_none_iff _ _
  · intro now pool i hsel
    rw [get_next_key_fst] at hsel
    exact minByKey_spec _ _ _ hsel

/-- Witness for claim C1 at the concrete scenario pool. -/
theorem C1_witness :
    (1 : Nat) ∈ availableIndices demoNow demoPool ∧
    ∀ j ∈ availableIndices demoNow demoPool,
      tupLe (selKey ((poolAfterCheck demoNow demoPool).getD 1 initKeyState))
            (selKey ((poolAfterCheck demoNow demoPool).getD j initKeyState)) :=
  C1_get_next_key_selection.2.1 demoNow demoPool 1 (by decide)

/-- Claim C7: `mark_key_error` increments the error count and records
the error time; exactly when the message contains the substring
`"quota exceeded"` case-insensitively it additionally forces
`available := false` and `requests_today := MAX_REQUESTS_PER_DAY`,
and otherwise it leaves those two fields (and the rest of the state)
unchanged. -/
theorem C7_mark_key_error_quota_lockout :
    ∀ (now : Nat) (msg : String) (s : KeyState),
      (mark_key_error now msg s).error_count = s.error_count + 1 ∧
      (mark_key_error now msg s).last_error = some now ∧
      (containsQuotaExceeded msg = true →
        (mark_key_error now msg s).available = false ∧
        (mark_key_error now msg s).requests_today = MAX_REQUESTS_PER_DAY) ∧
      (containsQuotaExceeded msg = false →
        (mark_key_error now msg s).available = s.available ∧
        (mark_key_error now msg s).requests_today = s.requests_today ∧
        (mark_key_error now msg s).last_used = s.last_used ∧
        (mark_key_error now msg s).quota_reset = s.quota_reset) := by
  intro now msg s
  unfold mark_key_error
  by_cases h : containsQuotaExceeded msg = true
  · simp [h]
  · simp only [Bool.not_eq_true] at h
    simp [h]

/-- Witness for claim C7: a mixed-case quota message locks the key out
for the day, a generic message leaves availability and usage alone. -/
theorem C7_witness :
    ((mark_key_error 5 "The QUOTA Exceeded for project" initKeyState).available
        = false ∧
     (mark_key_error 5 "The QUOTA Exceeded for project"
        initKeyState).requests_today = MAX_REQUESTS_PER_DAY) ∧
    (mark_key_error 7 "network timeout" initKeyState).available
        = initKeyState.available ∧
    (mark_key_error 7 "network timeout" initKeyState).error_count
        = initKeyState.error_count + 1 :=
  ⟨(C7_mark_key_error_quota_lockout 5 "The QUOTA Exceeded for project"
        initKeyState).2.2.1 (by decide),
   ((C7_mark_key_error_quota_lockout 7 "network timeout"
        initKeyState).2.2.2 (by decide)).1,
   (C7_mark_key_error_quota_lockout 7 "network timeout" initKeyState).1⟩

/-- Three consecutive error reports against a key state. -/
def threeErrors (t1 t2 t3 : Nat) (m1 m2 m3 : String) (s : KeyState) : KeyState :=
  mark_key_error t3 m3 (mark_key_error t2 m2 (mark_key_error t1 m1 s))

theorem mark_key_error_nonquota (now : Nat) (msg : String) (s : KeyState)
    (h : containsQuotaExceeded msg = false) :
    mark_key_error now msg s =
      { s with error_count := s.error_count + 1, last_error := some now } := by
  unfold mark_key_error
  simp [h]

theorem needsRollover_false (now : Nat) (s : KeyState) (q : Nat)
    (hq : s.quota_reset = some q) (hdate : dateOf now ≤ dateOf q) :
    needsRollover now s = false := by
  unfold needsRollover
  rw [hq]
  simp
  omega

theorem is_key_available_blocked_cooldown (now : Nat) (s : KeyState) (q le : Nat)
    (hq : s.quota_reset = some q) (hdate : dateOf now ≤ dateOf q)
    (hreq : s.requests_today < MAX_REQUESTS_PER_DAY)
    (herr : ERROR_THRESHOLD ≤ s.error_count)
    (hle : s.last_error = some le)
    (hin : tdSeconds (now - le) < COOLDOWN_PERIOD) :
    (is_key_available now s).1 = false := by
  have hfix : rolloverFix now s = s := by
    unfold rolloverFix
    rw [needsRollover_false now s q hq hdate]
    simp
  unfold is_key_available
  rw [hfix]
  unfold availCheck
  rw [if_neg (Nat.not_le.mpr hreq), if_pos herr, hle]
  simp only [if_pos hin]

theorem is_key_available_cooldown_expired (now : Nat) (s : KeyState) (q le : Nat)
    (hq : s.quota_reset = some q) (hdate : dateOf now ≤ dateOf q)
    (hreq : s.requests_today < MAX_REQUESTS_PER_DAY)
    (herr : ERROR_THRESHOLD ≤ s.error_count)
    (hle : s.last_error = some le)
    (hout : ¬ tdSeconds (now - le) < COOLDOWN_PERIOD) :
    (is_key_available now s).1 = s.available ∧
    (is_key_available now s).2.error_count = 0 := by
  have hfix : rolloverFix now s = s := by
    unfold rolloverFix
    rw [needsRollover_false now s q hq hdate]
    simp
  unfold is_key_available
  rw [hfix]
  unfold availCheck
  rw [if_neg (Nat.not_le.mpr hreq), if_pos herr, hle]
  simp [hout]

/-- Claim C6: starting from an otherwise healthy credential (available,
below the daily cap, quota marker from the current day), three
non-quota `mark_key_error` reports within the 60-second cooldown window
make the credential unavailable at any check inside the cooldown, and at
any same-day check at least `COOLDOWN_PERIOD` seconds after the last
error (and less than a day after, so no daily rollover is involved) the
credential is available again with its error counter reset to 0. -/
theorem C6_error_cooldown (s : KeyState) (q t1 t2 t3 tc tc2 : Nat)
    (m1 m2 m3 : String)
    (havl : s.available = true)
    (hreq : s.requests_today < MAX_REQUESTS_PER_DAY)
    (hq : s.quota_reset = some q)
    (hm1 : containsQuotaExceeded m1 = false)
    (hm2 : containsQuotaExceeded m2 = false)
    (hm3 : containsQuotaExceeded m3 = false)
    (horder : t1 ≤ t2 ∧ t2 ≤ t3 ∧ t3 - t1 < COOLDOWN_PERIOD)
    (hcdate : dateOf tc ≤ dateOf q)
    (hcin : t3 ≤ tc ∧ tc - t3 < COOLDOWN_PERIOD)
    (hc2date : dateOf tc2 ≤ dateOf q)
    (hc2out : COOLDOWN_PERIOD ≤ tc2 - t3 ∧ tc2 - t3 < secondsPerDay) :
    (is_key_available tc (threeErrors t1 t2 t3 m1 m2 m3 s)).1 = false ∧
    (is_key_available tc2 (threeErrors t1 t2 t3 m1 m2 m3 s)).1 = true ∧
    (is_key_available tc2 (threeErrors t1 t2 t3 m1 m2 m3 s)).2.error_count = 0 := by
  have hs3 : threeErrors t1 t2 t3 m1 m2 m3 s =
      { s with error_count := s.error_count + 1 + 1 + 1, last_error := some t3 } := by
    unfold threeErrors
    rw [mark_key_error_nonquota _ _ _ hm1, mark_key_error_nonquota _ _ _ hm2,
        mark_key_error_nonquota _ _ _ hm3]
  rw [hs3]
  have hth : ERROR_THRESHOLD ≤ s.error_count + 1 + 1 + 1 := by
    unfold ERROR_THRESHOLD; omega
  have hin : tdSeconds (tc - t3) < COOLDOWN_PERIOD := by
    unfold tdSeconds secondsPerDay COOLDOWN_PERIOD at *
    omega
  have hout : ¬ tdSeconds (tc2 - t3) < COOLDOWN_PERIOD := by
    unfold tdSeconds secondsPerDay COOLDOWN_PERIOD at *
    omega
  have hexp := is_key_available_cooldown_expired tc2
      { s with error_count := s.error_count + 1 + 1 + 1, last_error := some t3 }
      q t3 hq hc2date hreq hth rfl hout
  refine ⟨?_, ?_, hexp.2⟩
  · exact is_key_available_blocked_cooldown tc
      { s with error_count := s.error_count + 1 + 1 + 1, last_error := some t3 }
      q t3 hq hcdate hreq hth rfl hin
  · rw [hexp.1]
    exact havl

/-- Witness for claim C6 at concrete times: errors at 2000, 2010, 2020,
blocked at 2050, available again with a clean error counter at 2080. -/
theorem C6_witness :
    (is_key_available 2050 (threeErrors 2000 2010 2020 "boom" "boom" "boom"
        { initKeyState with quota_reset := some 1500,
                            requests_today := 5 })).1 = false ∧
    (is_key_available 2080 (threeErrors 2000 2010 2020 "boom" "boom" "boom"
        { initKeyState with quota_reset := some 1500,
                            requests_today := 5 })).1 = true ∧
    (is_key_available 2080 (threeErrors 2000 2010 2020 "boom" "boom" "boom"
        { initKeyState with quota_reset := some 1500,
                            requests_today := 5 })).2.error_count = 0 :=
  C6_error_cooldown
    { initKeyState with quota_reset := some 1500, requests_today := 5 }
    1500 2000 2010 2020 2050 2080 "boom" "boom" "boom"
    (by decide) (by decide) (by decide) (by decide) (by decide) (by decide)
    (by decide) (by decide) (by decide) (by decide) (by decide)

/-- A key state for which `get_key_status` is not a pure read: its
error threshold is reached and its cooldown has expired, so the lazy
availability check inside the status call resets the error counter. -/
def c8State : KeyState :=
  { initKeyState with error_count := 3, last_error := some 0,
                      quota_reset := some 0 }

/-- Counterexample to claim C8 as stated: on a pool holding `c8State`,
`get_key_status` at time 100 (same day, 100 seconds after the last
error) mutates the pool, resetting the error counter from 3 to 0. -/
theorem C8_counterexample :
    (get_key_status 100 [c8State]).2 ≠ [c8State] ∧
    ((get_key_status 100 [c8State]).2.getD 0 initKeyState).error_count = 0 ∧
    c8State.error_count = 3 := by decide

theorem is_key_available_snd_eq_iff (now : Nat) (s : KeyState) :
    (is_key_available now s).2 = s ↔
      (needsRollover now s = false ∧
       (MAX_REQUESTS_PER_DAY ≤ s.requests_today ∨
        s.error_count < ERROR_THRESHOLD ∨
        ∃ le, s.last_error = some le ∧
          tdSeconds (now - le) < COOLDOWN_PERIOD)) := by
  by_cases hnr : needsRollover now s = true
  · have hfix : rolloverFix now s =
        { s with quota_reset := some now, requests_today := 0,
                 error_count := 0, available := true } := by
      unfold rolloverFix
      rw [if_pos hnr]
    have hchk : ∀ s1 : KeyState, s1.requests_today = 0 → s1.error_count = 0 →
        availCheck now s1 = (s1.available, s1) := by
      intro s1 h1 h2
      unfold availCheck MAX_REQUESTS_PER_DAY ERROR_THRESHOLD
      rw [if_neg (by omega), if_neg (by omega)]
    have hres : (is_key_available now s).2 =
        { s with quota_reset := some now, requests_today := 0,
                 error_count := 0, available := true } := by
      unfold is_key_available
      rw [hfix, hchk _ rfl rfl]
    apply iff_of_false
    · intro heq
      rw [hres] at heq
      have hq : some now = s.quota_reset := congrArg KeyState.quota_reset heq
      unfold needsRollover at hnr
      cases hqr : s.quota_reset with
      | none =>
          rw [hqr] at hq
          exact Option.noConfusion hq
      | some qr =>
          rw [hqr] at hnr hq
          have hqn : now = qr := by injection hq
          simp only [decide_eq_true_eq] at hnr
          rw [hqn] at hnr
          omega
    · rintro ⟨hc, _⟩
      rw [hc] at hnr
      exact absurd hnr (by simp)
  · have hnrf : needsRollover now s = false := by simpa using hnr
    have hika : (is_key_available now s).2 = (availCheck now s).2 := by
      unfold is_key_available rolloverFix
      rw [hnrf]
      simp
    rw [hika]
    by_cases hcap : MAX_REQUESTS_PER_DAY ≤ s.requests_today
    · have hres : availCheck now s = (false, s) := by
        unfold availCheck
        rw [if_pos hcap]
      exact iff_of_true (by rw [hres]) ⟨hnrf, Or.inl hcap⟩
    · by_cases herr : ERROR_THRESHOLD ≤ s.error_count
      · cases hle : s.last_error with
        | none =>
            have hres : availCheck now s =
                (s.available, { s with error_count := 0 }) := by
              unfold availCheck
              rw [if_neg hcap, if_pos herr, hle]
            apply iff_of_false
            · rw [hres]
              intro heq
              have h0 : (0 : Nat) = s.error_count :=
                congrArg KeyState.error_count heq
              unfold ERROR_THRESHOLD at herr
              omega
            · rintro ⟨_, hc | hc | ⟨le, hle2, _⟩⟩
              · exact hcap hc
              · omega
              · exact Option.noConfusion hle2
        | some le =>
            by_cases hin : tdSeconds (now - le) < COOLDOWN_PERIOD
            · have hres : availCheck now s = (false, s) := by
                unfold availCheck
                rw [if_neg hcap, if_pos herr, hle]
                simp only [if_pos hin]
              exact iff_of_true (by rw [hres])
                ⟨hnrf, Or.inr (Or.inr ⟨le, rfl, hin⟩)⟩
            · have hres : availCheck now s =
                  (s.available, { s with error_count := 0 }) := by
                unfold availCheck
                rw [if_neg hcap, if_pos herr, hle]
                simp only [if_neg hin]
              apply iff_of_false
              · rw [hres]
                intro heq
                have h0 : (0 : Nat) = s.error_count :=
                  congrArg KeyState.error_count heq
                unfold ERROR_THRESHOLD at herr
                omega
              · rintro ⟨_, hc | hc | ⟨le2, hle2, hin2⟩⟩
                · exact hcap hc
                · omega
                · have hee : le = le2 := by injection hle2
                  rw [← hee] at hin2
                  exact hin hin2
      · have hres : availCheck now s = (s.available, s) := by
          unfold availCheck
          rw [if_neg hcap, if_neg herr]
        exact iff_of_true (by rw [hres]) ⟨hnrf, Or.inr (Or.inl (by omega))⟩

theorem map_eq_self_iff {α : Type} (f : α → α) :
    ∀ l : List α, l.map f = l ↔ ∀ a ∈ l, f a = a := by
  intro l
  induction l with
  | nil => simp
  | cons a l ih =>
      simp only [List.map_cons, List.cons.injEq, List.mem_cons]
      constructor
      · rintro ⟨h1, h2⟩ b hb
        rcases hb with rfl | hb
        · exact h1
        · exact (ih.mp h2) b hb
      · intro h
        exact ⟨h a (Or.inl rfl), ih.mpr (fun b hb => h b (Or.inr hb))⟩

/-- Claim C8, amended: `get_key_status` reports, for every credential,
the availability result together with the request count, error count
and last-used time of the lazily normalized entry, and it can mutate
the pool, so it is not side-effect free (see `C8_counterexample`).
Precisely, it leaves the pool state unchanged if and only if, for every
credential, no daily rollover is due and either the daily request cap
has been reached (that check returns before any cooldown reset), the
error count is below the threshold, or the credential is still within
its error cooldown. -/
theorem C8_get_key_status :
    ∀ (now : Nat) (pool : List KeyState),
      (get_key_status now pool).1 = pool.map (fun s =>
          ((is_key_available now s).1,
           (is_key_available now s).2.requests_today,
           (is_key_available now s).2.error_count,
           (is_key_available now s).2.last_used)) ∧
      ((get_key_status now pool).2 = pool ↔
        ∀ s ∈ pool, needsRollover now s = false ∧
          (MAX_REQUESTS_PER_DAY ≤ s.requests_today ∨
           s.error_count < ERROR_THRESHOLD ∨
           ∃ le, s.last_error = some le ∧
             tdSeconds (now - le) < COOLDOWN_PERIOD)) := by
  intro now pool
  constructor
  · rfl
  · have hmap : (get_key_status now pool).2 =
        pool.map (fun s => (is_key_available now s).2) := rfl
    rw [hmap, map_eq_self_iff]
    constructor
    · intro h s hs
      exact (is_key_available_snd_eq_iff now s).mp (h s hs)
    · intro h s hs
      exact (is_key_available_snd_eq_iff now s).mpr (h s hs)

/-- A healthy key state: quota marker current, no errors. -/
def c8Healthy : KeyState :=
  { initKeyState with quota_reset := some 90, requests_today := 7 }

/-- A key state at its daily cap with an expired error cooldown: the
cap check returns before the cooldown reset runs, so the status call
leaves it untouched. -/
def c8Capped : KeyState :=
  { initKeyState with requests_today := 50, error_count := 3,
                      last_error := some 0, quota_reset := some 0 }

/-- Witness for the amended claim C8: a healthy one-key pool is read
without modification, and so is a pool holding a capped key with an
expired cooldown. -/
theorem C8_witness :
    (get_key_status 100 [c8Healthy]).2 = [c8Healthy] ∧
    (get_key_status 100 [c8Capped]).2 = [c8Capped] :=
  ⟨(C8_get_key_status 100 [c8Healthy]).2.mpr (by
      intro s hs
      simp only [List.mem_singleton] at hs
      subst hs
      exact ⟨by decide, Or.inr (Or.inl (by decide))⟩),
   (C8_get_key_status 100 [c8Capped]).2.mpr (by
      intro s hs
      simp only [List.mem_singleton] at hs
      subst hs
      exact ⟨by decide, Or.inl (by decide)⟩)⟩

/-! ## Audio chunk splitter (`LongVideoProcessor.split_audio`) -/

/-- A chunk produced by `split_audio`: either the original asset path,
returned unchanged in the short case, or a slice `[start, stop)` of the
source audio, positions in milliseconds. -/
inductive AudioRef where
  | original (path : String)
  | segment (start stop : Nat)
deriving Repr, DecidableEq

/-- Python `range(0, stop, step)` for `step > 0`: the
`ceil(stop/step)` multiples of `step` below `stop`. -/
def pyRangeStep (stop step : Nat) : List Nat :=
  (List.range ((stop + step - 1) / step)).map (fun k => k * step)

/-- The slices cut by the loop `for i in range(0, len(audio), step)`
with `chunk = audio[i : i + step]`. -/
def segsOf (step L : Nat) : List AudioRef :=
  (pyRangeStep L step).map (fun i => AudioRef.segment i (min (i + step) L))

/-- `LongVideoProcessor.split_audio`: `lenMs` is `len(audio)` in
milliseconds, `chunk_duration` in seconds; the comparison
`total_duration <= chunk_duration` on seconds is `lenMs ≤ d * 1000`. -/
def split_audio (path : String) (lenMs : Nat) (chunk_duration : Nat) :
    List AudioRef :=
  if lenMs ≤ chunk_duration * 1000 then [AudioRef.original path]
  else segsOf (chunk_duration * 1000) lenMs

/-- Duration of a chunk slice in milliseconds. -/
def segLen : AudioRef → Nat
  | .original _ => 0
  | .segment a b => b - a

theorem ceilDiv_bounds (s L : Nat) (hs : 0 < s) (hL : s < L) :
    L ≤ ((L + s - 1) / s) * s ∧ (((L + s - 1) / s) - 1) * s < L ∧
    1 ≤ (L + s - 1) / s := by
  have hdm := Nat.div_add_mod (L + s - 1) s
  have hr : (L + s - 1) % s < s := Nat.mod_lt _ hs
  have hpos : 1 ≤ (L + s - 1) / s := Nat.div_pos (by omega) hs
  have h2 : ((L + s - 1) / s) * s = s * ((L + s - 1) / s) := Nat.mul_comm _ _
  have h1 : (((L + s - 1) / s) - 1) * s = ((L + s - 1) / s) * s - 1 * s :=
    Nat.sub_mul _ _ _
  refine ⟨by omega, by omega, hpos⟩

theorem segsOf_eq (s L : Nat) :
    segsOf s L = (List.range ((L + s - 1) / s)).map
      (fun k => AudioRef.segment (k * s) (min ((k + 1) * s) L)) := by
  unfold segsOf pyRangeStep
  rw [List.map_map]
  apply List.map_congr_left
  intro k _
  simp only [Function.comp]
  rw [Nat.succ_mul]

theorem range_sum_sub (g : Nat → Nat) (hg : ∀ k, g k ≤ g (k + 1)) :
    ∀ n, ((List.range n).map (fun k => g (k + 1) - g k)).sum = g n - g 0 ∧
      g 0 ≤ g n := by
  intro n
  induction n with
  | zero => simp
  | succ n ih =>
      rw [List.range_succ, List.map_append, List.sum_append]
      simp only [List.map_cons, List.map_nil, List.sum_cons, List.sum_nil]
      have := hg n
      constructor
      · omega
      · omega

/-- Claim C2: with a positive chunk duration `d` seconds, `split_audio`
returns the original asset unchanged as a single element when the total
duration is at most `d`; otherwise it returns `ceil(lenMs / (d*1000))`
consecutive non-overlapping slices in temporal order (the k-th slice
being `[k*step, min((k+1)*step, lenMs))`, each ending where the next
begins) whose durations sum to the original duration. -/
theorem C2_split_audio (path : String) (lenMs d : Nat) (hd : 0 < d) :
    (lenMs ≤ d * 1000 → split_audio path lenMs d = [AudioRef.original path]) ∧
    (d * 1000 < lenMs →
      split_audio path lenMs d =
        (List.range ((lenMs + d * 1000 - 1) / (d * 1000))).map
          (fun k => AudioRef.segment (k * (d * 1000))
            (min ((k + 1) * (d * 1000)) lenMs)) ∧
      (split_audio path lenMs d).length =
        (lenMs + d * 1000 - 1) / (d * 1000) ∧
      (∀ k, k + 1 < (lenMs + d * 1000 - 1) / (d * 1000) →
        min ((k + 1) * (d * 1000)) lenMs = (k + 1) * (d * 1000)) ∧
      ((split_audio path lenMs d).map segLen).sum = lenMs) := by
  have hs : 0 < d * 1000 := by omega
  constructor
  · intro h
    unfold split_audio
    rw [if_pos h]
  · intro hL
    have hsplit : split_audio path lenMs d = segsOf (d * 1000) lenMs := by
      unfold split_audio
      rw [if_neg (by omega)]
    obtain ⟨hub, hlb, hpos⟩ := ceilDiv_bounds (d * 1000) lenMs hs hL
    have hkmul : ∀ k, k + 1 ≤ (lenMs + d * 1000 - 1) / (d * 1000) - 1 →
        (k + 1) * (d * 1000) < lenMs := by
      intro k hk
      have := Nat.mul_le_mul_right (d * 1000) hk
      omega
    have hadj : ∀ k, k + 1 < (lenMs + d * 1000 - 1) / (d * 1000) →
        min ((k + 1) * (d * 1000)) lenMs = (k + 1) * (d * 1000) := by
      intro k hk
      exact min_eq_left (le_of_lt (hkmul k (by omega)))
    refine ⟨by rw [hsplit, segsOf_eq], by rw [hsplit, segsOf_eq]; simp, hadj, ?_⟩
    rw [hsplit, segsOf_eq, List.map_map]
    have hcongr : ∀ k ∈ List.range ((lenMs + d * 1000 - 1) / (d * 1000)),
        (segLen ∘ fun k => AudioRef.segment (k * (d * 1000))
            (min ((k + 1) * (d * 1000)) lenMs)) k =
          (fun k => min ((k + 1) * (d * 1000)) lenMs -
            min (k * (d * 1000)) lenMs) k := by
      intro k hk
      have hklt : k < (lenMs + d * 1000 - 1) / (d * 1000) := List.mem_range.mp hk
      have hks : k * (d * 1000) ≤ lenMs := by
        rcases Nat.eq_or_lt_of_le hklt with h | h
        · have h0 : k ≤ (lenMs + d * 1000 - 1) / (d * 1000) - 1 := by omega
          have := Nat.mul_le_mul_right (d * 1000) h0
          omega
        · have h0 : k + 1 ≤ (lenMs + d * 1000 - 1) / (d * 1000) - 1 := by omega
          have h1 := hkmul k h0
          have h2 : k * (d * 1000) ≤ (k + 1) * (d * 1000) :=
            Nat.mul_le_mul_right _ (Nat.le_succ k)
          omega
      simp only [Function.comp]
      unfold segLen
      rw [min_eq_left hks]
    rw [List.map_congr_left hcongr]
    have hmono : ∀ k, min (k * (d * 1000)) lenMs ≤ min ((k + 1) * (d * 1000)) lenMs := by
      intro k
      exact min_le_min (Nat.mul_le_mul_right _ (Nat.le_succ k)) (le_refl _)
    obtain ⟨hsum, _⟩ := range_sum_sub (fun k => min (k * (d * 1000)) lenMs) hmono
        ((lenMs + d * 1000 - 1) / (d * 1000))
    rw [hsum]
    simp only [Nat.zero_mul, Nat.min_eq_left (Nat.zero_le _)]
    rw [min_eq_right hub]
    omega

/-- Witness for claim C2: a 30-second asset is returned unchanged, a
150-second asset splits into slices whose lengths sum to the whole. -/
theorem C2_witness :
    split_audio "audio.mp3" 30000 60 = [AudioRef.original "audio.mp3"] ∧
    ((split_audio "audio.mp3" 150000 60).map segLen).sum = 150000 :=
  ⟨(C2_split_audio "audio.mp3" 30000 60 (by decide)).1 (by decide),
   ((C2_split_audio "audio.mp3" 150000 60 (by decide)).2 (by decide)).2.2.2⟩

/-! ## Long job tracking (`LongVideoProcessor.process_long_video`) -/

/-- One record of `processing_results`.  `final_transcript` is `none`
until the job completes, `error` is `none` unless it fails. -/
structure Job where
  status : String
  progress : Nat
  transcripts : List String
  error : Option String
  final_transcript : Option String
deriving Repr, DecidableEq

/-- The record installed when `process_long_video` starts. -/
def initJob : Job :=
  { status := "processing", progress := 0, transcripts := [],
    error := none, final_transcript := none }

/-- Body of one iteration of the chunk loop: append the chunk result
(text or error placeholder) and set
`progress = int((i + 1) * 100 / total_chunks)`. -/
def recordChunk (total i : Nat) (t : String) (j : Job) : Job :=
  { j with transcripts := j.transcripts ++ [t],
           progress := (i + 1) * 100 / total }

/-- The chunk loop over the per-chunk transcription results, `i` the
index of the next chunk. -/
def runChunks (total : Nat) : List String → Nat → Job → Job
  | [], _, j => j
  | t :: rest, i, j => runChunks total rest (i + 1) (recordChunk total i t j)

/-- Completion step of `process_long_video`: status becomes
`completed` and the final transcript is the segments joined by a single
space. -/
def finishJob (j : Job) : Job :=
  { j with status := "completed",
           final_transcript := some (String.intercalate " " j.transcripts) }

/-- `process_long_video` on the list of per-chunk transcription results
(each entry is either the transcribed text or the error placeholder
returned by `transcribe_chunk`; that function never raises). -/
def process_long_video (ts : List String) : Job :=
  finishJob (runChunks ts.length ts 0 initJob)

theorem runChunks_transcripts (total : Nat) :
    ∀ (ts : List String) (i : Nat) (j : Job),
      (runChunks total ts i j).transcripts = j.transcripts ++ ts := by
  intro ts
  induction ts with
  | nil => intro i j; simp [runChunks]
  | cons t rest ih =>
      intro i j
      show (runChunks total rest (i + 1) (recordChunk total i t j)).transcripts = _
      rw [ih]
      unfold recordChunk
      simp

theorem runChunks_progress (total : Nat) :
    ∀ (ts : List String) (i : Nat) (j : Job), ts ≠ [] →
      (runChunks total ts i j).progress = (i + ts.length) * 100 / total := by
  intro ts
  induction ts with
  | nil => intro i j h; exact absurd rfl h
  | cons t rest ih =>
      intro i j _
      show (runChunks total rest (i + 1) (recordChunk total i t j)).progress = _
      rcases rest with _ | ⟨t2, rest2⟩
      · unfold runChunks recordChunk
        simp
      · rw [ih (i + 1) _ (by simp)]
        have : i + 1 + (t2 :: rest2).length = i + (t :: t2 :: rest2).length := by
          simp
          omega
        rw [this]

theorem runChunks_status (total : Nat) :
    ∀ (ts : List String) (i : Nat) (j : Job),
      (runChunks total ts i j).status = j.status := by
  intro ts
  induction ts with
  | nil => intro i j; rfl
  | cons t rest ih =>
      intro i j
      show (runChunks total rest (i + 1) (recordChunk total i t j)).status = _
      rw [ih]
      rfl

/-- Claim C3: for a job with `K = ts.length ≥ 1` chunks, the progress
recorded after chunk `i` is `(i + 1) * 100 / K` rounded down (updated
for every chunk result, whether transcribed text or an error
placeholder — both enter `ts` as plain strings); after all `K` chunks
the job has progress 100, status `completed`, and its final transcript
is the `K` segment texts joined with single spaces in original order. -/
theorem C3_process_long_video (ts : List String) (hK : 1 ≤ ts.length) :
    (∀ i, i < ts.length →
      (runChunks ts.length (ts.take (i + 1)) 0 initJob).progress =
        (i + 1) * 100 / ts.length) ∧
    (process_long_video ts).progress = 100 ∧
    (process_long_video ts).status = "completed" ∧
    (process_long_video ts).final_transcript =
      some (String.intercalate " " ts) := by
  refine ⟨?_, ?_, ?_, ?_⟩
  · intro i hi
    have hne : ts.take (i + 1) ≠ [] := by
      have : (ts.take (i + 1)).length = i + 1 := by
        rw [List.length_take]
        omega
      intro hc
      rw [hc] at this
      simp at this
    rw [runChunks_progress ts.length (ts.take (i + 1)) 0 initJob hne]
    have : (ts.take (i + 1)).length = i + 1 := by
      rw [List.length_take]
      omega
    rw [this]
    simp
  · unfold process_long_video finishJob
    simp only []
    rw [runChunks_progress ts.length ts 0 initJob (by
      intro hc; rw [hc] at hK; simp at hK)]
    simp only [Nat.zero_add]
    exact Nat.mul_div_cancel_left 100 (by omega)
  · unfold process_long_video finishJob
    rfl
  · unfold process_long_video finishJob
    simp only []
    rw [runChunks_transcripts ts.length ts 0 initJob]
    rfl

/-- Witness for claim C3 on a three-chunk job: after the second chunk
progress is 66, and the finished job joins the three segments. -/
theorem C3_witness :
    (runChunks 3 (["seg one", "seg two", "seg three"].take 2) 0
        initJob).progress = 2 * 100 / 3 ∧
    (process_long_video ["seg one", "seg two", "seg three"]).progress = 100 ∧
    (process_long_video ["seg one", "seg two", "seg three"]).final_transcript =
      some (String.intercalate " " ["seg one", "seg two", "seg three"]) :=
  ⟨(C3_process_long_video ["seg one", "seg two", "seg three"]
      (by decide)).1 1 (by decide),
   (C3_process_long_video ["seg one", "seg two", "seg three"]
      (by decide)).2.1,
   (C3_process_long_video ["seg one", "seg two", "seg three"]
      (by decide)).2.2.2⟩

/-! ## Chunk file cleanup (`process_long_video`, `finally: os.unlink`) -/

/-- `os.unlink(p)` on a file system modelled as the list of existing
paths; a missing path is a no-op, matching the `except: pass` that
swallows deletion failures. -/
def unlinkFs (fs : List String) (p : String) : List String :=
  fs.filter (fun q => q != p)

/-- The chunk loop with its file effects: each chunk is a pair of its
path and its transcription result, and after each chunk the path is
unlinked in a `finally` block, whether or not transcription degraded to
a placeholder. -/
def runChunksFs (total : Nat) :
    List (String × String) → Nat → Job → List String → Job × List String
  | [], _, j, fs => (j, fs)
  | c :: rest, i, j, fs =>
      runChunksFs total rest (i + 1) (recordChunk total i c.2 j) (unlinkFs fs c.1)

theorem runChunksFs_fs (total : Nat) :
    ∀ (chunks : List (String × String)) (i : Nat) (j : Job) (fs : List String),
      (runChunksFs total chunks i j fs).2 =
        fs.filter (fun q => (chunks.map Prod.fst).all (fun p => q != p)) := by
  intro chunks
  induction chunks with
  | nil => intro i j fs; simp [runChunksFs]
  | cons c rest ih =>
      intro i j fs
      show (runChunksFs total rest (i + 1) (recordChunk total i c.2 j)
          (unlinkFs fs c.1)).2 = _
      rw [ih]
      unfold unlinkFs
      rw [List.filter_filter]
      apply List.filter_congr
      intro a _
      simp [Bool.and_comm]

theorem runChunksFs_job (total : Nat) :
    ∀ (chunks : List (String × String)) (i : Nat) (j : Job) (fs : List String),
      (runChunksFs total chunks i j fs).1 =
        runChunks total (chunks.map Prod.snd) i j := by
  intro chunks
  induction chunks with
  | nil => intro i j fs; rfl
  | cons c rest ih =>
      intro i j fs
      show (runChunksFs total rest (i + 1) (recordChunk total i c.2 j)
          (unlinkFs fs c.1)).1 = _
      rw [ih]
      rfl

/-- Claim C10: after the chunk loop, every chunk path has been removed
from the file system (unlink attempted for every chunk regardless of
its transcription outcome, with failures swallowed — unlink of a
missing path is a no-op), the job record is untouched by the file
system; and in the single-chunk case, where `split_audio` returned the
original audio path, that original extracted asset itself is deleted. -/
theorem C10_unlink_after_chunks :
    (∀ (total : Nat) (chunks : List (String × String)) (i : Nat) (j : Job)
        (fs : List String),
      (runChunksFs total chunks i j fs).2 =
        fs.filter (fun q => (chunks.map Prod.fst).all (fun p => q != p)) ∧
      (runChunksFs total chunks i j fs).1 =
        runChunks total (chunks.map Prod.snd) i j) ∧
    (∀ (path t : String) (lenMs d : Nat) (fs : List String),
      0 < d → lenMs ≤ d * 1000 →
      split_audio path lenMs d = [AudioRef.original path] ∧
      path ∉ (runChunksFs 1 [(path, t)] 0 initJob fs).2) := by
  constructor
  · intro total chunks i j fs
    exact ⟨runChunksFs_fs total chunks i j fs, runChunksFs_job total chunks i j fs⟩
  · intro path t lenMs d fs _ hshort
    constructor
    · unfold split_audio
      rw [if_pos hshort]
    · rw [runChunksFs_fs]
      intro hmem
      have := (List.mem_filter.mp hmem).2
      simp at this

/-- Witness for claim C10: a short asset keeps its original path
through `split_audio`, and processing that single chunk deletes the
original audio file while leaving other files in place. -/
theorem C10_witness :
    split_audio "a.mp3" 30000 60 = [AudioRef.original "a.mp3"] ∧
    "a.mp3" ∉ (runChunksFs 1 [("a.mp3", "txt")] 0 initJob
      ["a.mp3", "keep.mp3"]).2 :=
  C10_unlink_after_chunks.2 "a.mp3" "txt" 30000 60 ["a.mp3", "keep.mp3"]
    (by decide) (by decide)

/-! ## Retry failure modes (`transcribe_chunk`, the two
`generate_summary` variants and `_process_with_retry`) -/

/-- The string returned by `transcribe_chunk` when the last attempt
fails. -/
def errPlaceholder (retries : Nat) (e : String) : String :=
  s!"[Error transcribing chunk after {retries} attempts: {e}]"

/-- The retry loop of `LongVideoProcessor.transcribe_chunk`.  `f` gives
the outcome of the remote transcription call on each attempt; the fuel
argument counts the attempts left, and the `none` result corresponds to
the implicit `return None` reachable only when `retries = 0`. -/
def transcribeGo (f : Nat → Except String String) (retries : Nat) :
    Nat → Nat → Option String
  | 0, _ => none
  | rem + 1, attempt =>
      match f attempt with
      | .ok t => some t
      | .error e =>
          if attempt = retries - 1 then some (errPlaceholder retries e)
          else transcribeGo f retries rem (attempt + 1)

/-- `LongVideoProcessor.transcribe_chunk` with `retries` attempts. -/
def transcribe_chunk (f : Nat → Except String String) (retries : Nat) :
    Option String :=
  transcribeGo f retries retries 0

/-- The string returned by `LongVideoProcessor.generate_summary` when
the remote call fails. -/
def summaryPlaceholder (e : String) : String :=
  s!"[Error generating summary: {e}]"

/-- `LongVideoProcessor.generate_summary`: its whole body sits in a
single `try`, and any failure of the remote call is caught and embedded
into an ordinary string result.  The function always returns normally,
so its embedding always produces `Except.ok`. -/
def longGenerateSummary (call : Except String String) : Except String String :=
  match call with
  | .ok t => .ok t
  | .error e => .ok (summaryPlaceholder e)

/-- `mark_key_error` applied to the key at index `i` of the pool. -/
def markPool (now : Nat) (msg : String) (i : Nat) (pool : List KeyState) :
    List KeyState :=
  pool.set i (mark_key_error now msg (pool.getD i initKeyState))

/-- The loop of `TikTokProcessor._process_with_retry`: `g` gives the
outcome of the wrapped call on each attempt; on failure the error is
reported against the current key and, before the last attempt, a
replacement key is requested, aborting with the current error if none
is available.  The fuel `rem` counts the attempts left
(`rem = maxA - attempt` at every reachable call, so the fuel-exhausted
branch is dead for `maxA ≥ 1`). -/
def pwrGo (g : Nat → Except String String) (now maxA : Nat) :
    Nat → Nat → Nat → List KeyState →
      Except String String × Nat × List KeyState
  | 0, _, key, pool => (.error "retry loop exhausted", key, pool)
  | rem + 1, attempt, key, pool =>
      match g attempt with
      | .ok v => (.ok v, key, pool)
      | .error e =>
          if attempt < maxA - 1 then
            match get_next_key now (markPool now e key pool) with
            | (some k, pool2) => pwrGo g now maxA rem (attempt + 1) k pool2
            | (none, pool2) => (.error e, key, pool2)
          else (.error e, key, markPool now e key pool)

/-- `TikTokProcessor._process_with_retry` with its fixed
`max_attempts = 3`, used by the short-pipeline `generate_summary`. -/
def process_with_retry (g : Nat → Except String String) (now key : Nat)
    (pool : List KeyState) : Except String String × Nat × List KeyState :=
  pwrGo g now 3 3 0 key pool

/-- Counterexample to claim C4 as stated: in the long pipeline,
`LongVideoProcessor.generate_summary` does not propagate a hard error
to its caller when the remote call fails — it catches the failure and
returns an ordinary (`ok`) result embedding a placeholder string. -/
theorem C4_counterexample :
    longGenerateSummary (Except.error "boom") =
      Except.ok "[Error generating summary: boom]" := by
  rfl

theorem pwrGo_all_fail (g : Nat → Except String String) (now maxA : Nat) :
    ∀ (rem attempt key : Nat) (pool : List KeyState),
      (∀ i, attempt ≤ i → i < attempt + rem → ∃ e, g i = Except.error e) →
      ∃ e, (pwrGo g now maxA rem attempt key pool).1 = Except.error e := by
  intro rem
  induction rem with
  | zero => intro attempt key pool _; exact ⟨"retry loop exhausted", rfl⟩
  | succ rem ih =>
      intro attempt key pool h
      obtain ⟨e, he⟩ := h attempt (le_refl _) (by omega)
      show ∃ e2, (match g attempt with
        | .ok v => (Except.ok v, key, pool)
        | .error e =>
            if attempt < maxA - 1 then
              match get_next_key now (markPool now e key pool) with
              | (some k, pool2) => pwrGo g now maxA rem (attempt + 1) k pool2
              | (none, pool2) => (Except.error e, key, pool2)
            else (Except.error e, key, markPool now e key pool)).1 =
          Except.error e2
      simp only [he]
      by_cases hlt : attempt < maxA - 1
      · simp only [if_pos hlt]
        cases hk : get_next_key now (markPool now e key pool) with
        | mk fst snd =>
            cases fst with
            | some k =>
                simp only [hk]
                exact ih (attempt + 1) k snd (fun i h1 h2 => h i (by omega) (by omega))
            | none =>
                simp only [hk]
                exact ⟨e, rfl⟩
      · simp only [if_neg hlt]
        exact ⟨e, rfl⟩

/-- Claim C4, amended: when every retry attempt of the remote call
fails, a transcription call (`transcribe_chunk`) degrades to a
placeholder error string embedded in the result, and the short-pipeline
summarization (`TikTokProcessor.generate_summary` run through
`_process_with_retry`) propagates the failure as a hard error to its
caller; the long-pipeline summarization
(`LongVideoProcessor.generate_summary`), however, also degrades to a
placeholder string instead of propagating
(see `C4_counterexample`). -/
theorem C4_retry_failure_modes :
    (∀ (f : Nat → Except String String) (e0 e1 e2 : String),
      f 0 = Except.error e0 → f 1 = Except.error e1 → f 2 = Except.error e2 →
      transcribe_chunk f 3 = some (errPlaceholder 3 e2)) ∧
    (∀ (g : Nat → Except String String) (now key : Nat) (pool : List KeyState),
      (∀ i, i < 3 → ∃ e, g i = Except.error e) →
      ∃ e, (process_with_retry g now key pool).1 = Except.error e) ∧
    (∀ e : String,
      longGenerateSummary (Except.error e) = Except.ok (summaryPlaceholder e)) := by
  refine ⟨?_, ?_, ?_⟩
  · intro f e0 e1 e2 h0 h1 h2
    simp [transcribe_chunk, transcribeGo, h0, h1, h2]
  · intro g now key pool h
    exact pwrGo_all_fail g now 3 3 0 key pool (fun i _ h2 => h i (by omega))
  · intro e
    rfl

/-- Witness for claim C4: an always-failing transcription call yields
the placeholder, an always-failing short-pipeline summarization
propagates an error. -/
theorem C4_witness :
    transcribe_chunk (fun _ => Except.error "x") 3 =
      some (errPlaceholder 3 "x") ∧
    (∃ e, (process_with_retry (fun _ => Except.error "y") 0 0
      [initKeyState]).1 = Except.error e) ∧
    longGenerateSummary (Except.error "z") =
      Except.ok (summaryPlaceholder "z") :=
  ⟨C4_retry_failure_modes.1 (fun _ => Except.error "x") "x" "x" "x" rfl rfl rfl,
   C4_retry_failure_modes.2.1 (fun _ => Except.error "y") 0 0 [initKeyState]
     (fun i _ => ⟨"y", rfl⟩),
   C4_retry_failure_modes.2.2 "z"⟩

/-! ## Too-long videos (`TikTokProcessor.extract_audio`,
`RetryStrategy.execute`, `TikTokProcessor.process_video`) -/

/-- Python exceptions relevant to `process_video`: `ValueError` is
caught by the dedicated `except ValueError` clause, everything else by
`except Exception`. -/
inductive PyErr where
  | valueError (msg : String)
  | generic (msg : String)
deriving Repr, DecidableEq

/-- The `ValueError` message raised when the video exceeds 300
seconds. -/
def tooLongMsg : String :=
  "This video is too long for automatic transcription. Please use the extracted audio file with NotebookLM or another transcription service."

/-- One attempt of `_extract` inside `extract_audio`: the processor
state is its `extracted_audio_path` attribute, set only after a
successful write, which happens only when `duration ≤ 300`. -/
def extractAttempt (duration : Nat) (audioPath : String)
    (st : Option String) : Except PyErr String × Option String :=
  if 300 < duration then (Except.error (PyErr.valueError tooLongMsg), st)
  else (Except.ok audioPath, some audioPath)

/-- `RetryStrategy.execute`: runs the attempts in order, returning the
first success or re-raising the last exception once all attempts are
spent; `none` is the implicit `return None` reachable only with
`max_attempts = 0`.  State threads through every attempt. -/
def retryExecuteSt {σ α : Type} (f : Nat → σ → Except PyErr α × σ) :
    Nat → Nat → Option PyErr → σ → Option (Except PyErr α) × σ
  | 0, _, last, s => (last.map Except.error, s)
  | n + 1, attempt, _, s =>
      match f attempt s with
      | (.ok v, s1) => (some (.ok v), s1)
      | (.error e, s1) => retryExecuteSt f n (attempt + 1) (some e) s1

/-- `RetryStrategy.execute` from a fresh strategy. -/
def retry_execute {σ α : Type} (f : Nat → σ → Except PyErr α × σ)
    (maxAttempts : Nat) (s : σ) : Option (Except PyErr α) × σ :=
  retryExecuteSt f maxAttempts 0 none s

/-- `TikTokProcessor.extract_audio`: `_extract` wrapped in the retry
strategy with its default `max_attempts = 3` (the fallthrough branch is
dead at 3 attempts). -/
def extract_audio (duration : Nat) (audioPath : String)
    (st : Option String) : Except PyErr String × Option String :=
  match retry_execute (fun _ s => extractAttempt duration audioPath s) 3 st with
  | (some r, s1) => (r, s1)
  | (none, s1) => (Except.error (PyErr.generic "no attempts"), s1)

/-- The two `except` clauses of `process_video`: a `ValueError` whose
message contains `"too long"` returns the message together with the
already-extracted audio path as a fallback artifact when one exists and
re-raises otherwise; any other exception returns a generic fallback
triple when extracted audio exists (path presence modelling the
`os.path.exists` test) and re-raises otherwise. -/
def catchClauses (e : PyErr) (st : Option String) :
    Except PyErr (String × String × Option String) :=
  match e with
  | .valueError msg =>
      if listInfix ("too long".data) msg.data then
        match st with
        | some p => Except.ok (msg, "Video too long for transcription", some p)
        | none => Except.error (PyErr.valueError msg)
      else Except.error (PyErr.valueError msg)
  | .generic msg =>
      match st with
      | some p => Except.ok ("Processing failed", "Processing failed", some p)
      | none => Except.error (PyErr.generic msg)

/-- External outcomes feeding one `process_video` run: the download
result, the source duration, the audio target path, the transcription
result (`transcribe_audio` returns `None` instead of raising) and the
summarization outcome. -/
structure VideoEnv where
  download : Except PyErr String
  duration : Nat
  audioPath : String
  transcribeRes : Option String
  summaryRes : Except PyErr String

/-- `TikTokProcessor.process_video`, returning the
`(transcript, summary, audio path)` triple or the propagated
exception. -/
def process_video (env : VideoEnv) (st : Option String) :
    Except PyErr (String × String × Option String) :=
  match env.download with
  | .error e => catchClauses e st
  | .ok _ =>
      match extract_audio env.duration env.audioPath st with
      | (.error err, st1) => catchClauses err st1
      | (.ok apath, _) =>
          match env.transcribeRes with
          | none =>
              Except.ok ("Transcription failed", "Summary not available",
                some apath)
          | some transcript =>
              match env.summaryRes with
              | .error e => catchClauses e (some apath)
              | .ok summary => Except.ok (transcript, summary, some apath)

theorem retryExecuteSt_tooLong (duration : Nat) (audioPath : String)
    (hdur : 300 < duration) :
    ∀ (n attempt : Nat) (last : Option PyErr) (st : Option String),
      retryExecuteSt (fun _ s => extractAttempt duration audioPath s)
          (n + 1) attempt last st =
        (some (Except.error (PyErr.valueError tooLongMsg)), st) := by
  have hfail : ∀ (a : Nat) (s : Option String),
      extractAttempt duration audioPath s =
        (Except.error (PyErr.valueError tooLongMsg), s) := by
    intro a s
    unfold extractAttempt
    rw [if_pos hdur]
  intro n
  induction n with
  | zero =>
      intro attempt last st
      rw [retryExecuteSt, hfail attempt st]
      rfl
  | succ n ih =>
      intro attempt last st
      rw [retryExecuteSt, hfail attempt st]
      exact ih (attempt + 1) (some (PyErr.valueError tooLongMsg)) st

set_option maxRecDepth 10000 in
/-- Claim C5: when the source duration exceeds the 300-second
single-shot limit, the extraction error is terminal and non-retryable —
every number of retry attempts of `RetryStrategy.execute` surfaces the
same `ValueError` (whose message carries the `"too long"` marker) and
leaves the extracted-audio state untouched; `process_video` then
returns any already-extracted audio to the caller as the fallback
artifact of a `(message, "Video too long for transcription", path)`
triple, and propagates the error when no audio had been extracted. -/
theorem C5_too_long_video (duration : Nat) (audioPath : String)
    (st : Option String) (hdur : 300 < duration) :
    (∀ n, retry_execute (fun _ s => extractAttempt duration audioPath s)
        (n + 1) st =
      (some (Except.error (PyErr.valueError tooLongMsg)), st)) ∧
    extract_audio duration audioPath st =
      (Except.error (PyErr.valueError tooLongMsg), st) ∧
    listInfix ("too long".data) tooLongMsg.data = true ∧
    (∀ env : VideoEnv, env.duration = duration → env.audioPath = audioPath →
      (∃ v, env.download = Except.ok v) →
      (∀ p, st = some p →
        process_video env st =
          Except.ok (tooLongMsg, "Video too long for transcription", some p)) ∧
      (st = none →
        process_video env st =
          Except.error (PyErr.valueError tooLongMsg))) := by
  have hretry : ∀ n, retry_execute
      (fun _ s => extractAttempt duration audioPath s) (n + 1) st =
        (some (Except.error (PyErr.valueError tooLongMsg)), st) := by
    intro n
    exact retryExecuteSt_tooLong duration audioPath hdur n 0 none st
  have hext : extract_audio duration audioPath st =
      (Except.error (PyErr.valueError tooLongMsg), st) := by
    unfold extract_audio
    rw [hretry 2]
  have hinf : listInfix ("too long".data) tooLongMsg.data = true := by decide
  refine ⟨hretry, hext, hinf, ?_⟩
  intro env hd ha hdl
  obtain ⟨v, hv⟩ := hdl
  have hproc : process_video env st =
      catchClauses (PyErr.valueError tooLongMsg) st := by
    unfold process_video
    rw [hv]
    rw [hd, ha, hext]
  constructor
  · intro p hp
    rw [hproc, hp]
    simp [catchClauses, hinf]
  · intro hp
    rw [hproc, hp]
    simp [catchClauses, hinf]

/-- Witness for claim C5: a 301-second video with previously extracted
audio at `"old.mp3"` produces the fallback triple; with no extracted
audio the error propagates. -/
theorem C5_witness :
    extract_audio 301 "audio.mp3" (some "old.mp3") =
      (Except.error (PyErr.valueError tooLongMsg), some "old.mp3") ∧
    process_video
      { download := Except.ok "video.mp4", duration := 301,
        audioPath := "audio.mp3", transcribeRes := none,
        summaryRes := Except.ok "s" } (some "old.mp3") =
      Except.ok (tooLongMsg, "Video too long for transcription",
        some "old.mp3") ∧
    process_video
      { download := Except.ok "video.mp4", duration := 301,
        audioPath := "audio.mp3", transcribeRes := none,
        summaryRes := Except.ok "s" } none =
      Except.error (PyErr.valueError tooLongMsg) :=
  ⟨(C5_too_long_video 301 "audio.mp3" (some "old.mp3") (by decide)).2.1,
   ((C5_too_long_video 301 "audio.mp3" (some "old.mp3") (by decide)).2.2.2
      { download := Except.ok "video.mp4", duration := 301,
        audioPath := "audio.mp3", transcribeRes := none,
        summaryRes := Except.ok "s" } rfl rfl ⟨"video.mp4", rfl⟩).1
      "old.mp3" rfl,
   ((C5_too_long_video 301 "audio.mp3" none (by decide)).2.2.2
      { download := Except.ok "video.mp4", duration := 301,
        audioPath := "audio.mp3", transcribeRes := none,
        summaryRes := Except.ok "s" } rfl rfl ⟨"video.mp4", rfl⟩).2 rfl⟩

/-! ## Rate limiter (`RateLimiter.wait_for_quota`) -/

/-- Constructor arguments of `RateLimiter`. -/
structure RLConfig where
  requests_per_minute : Nat
  tokens_per_minute : Nat
deriving Repr, DecidableEq

/-- Mutable state of `RateLimiter`: the sliding window of call
timestamps, the cumulative token counter and the time of the last
counter reset. -/
structure RLState where
  requests_queue : List Nat
  tokens_used : Nat
  last_reset : Nat
deriving Repr, DecidableEq

/-- Eviction of window entries older than 60 seconds:
`[t for t in queue if now - t < timedelta(minutes=1)]`. -/
def evictQueue (now : Nat) (q : List Nat) : List Nat :=
  q.filter (fun t => now - t < 60)

/-- The entry block of `wait_for_quota`: only when a full minute has
elapsed since the last reset are the token counter cleared, the stale
entries evicted and the reset time advanced. -/
def initialAdjust (now : Nat) (s : RLState) : RLState :=
  if 60 ≤ now - s.last_reset then
    { requests_queue := evictQueue now s.requests_queue,
      tokens_used := 0, last_reset := now }
  else s

/-- The `while` condition: the window is full or the token budget
cannot absorb the estimated cost. -/
def blocked (cfg : RLConfig) (est : Nat) (s : RLState) : Bool :=
  decide (cfg.requests_per_minute ≤ s.requests_queue.length) ||
  decide (cfg.tokens_per_minute < s.tokens_used + est)

/-- One poll iteration after the 1-second sleep, at wall time `t`:
stale entries are evicted first, then the token counter resets if a
full minute has elapsed since the last reset. -/
def pollAdjust (t : Nat) (s : RLState) : RLState :=
  if 60 ≤ t - s.last_reset then
    { requests_queue := evictQueue t s.requests_queue,
      tokens_used := 0, last_reset := t }
  else { s with requests_queue := evictQueue t s.requests_queue }

/-- The final two statements of `wait_for_quota`: record the call
timestamp and charge the estimated token cost. -/
def recordCall (now est : Nat) (s : RLState) : RLState :=
  { s with requests_queue := s.requests_queue ++ [now],
           tokens_used := s.tokens_used + est }

/-- The polling loop of `wait_for_quota`: `times` lists the wall-clock
times at which the successive 1-second sleeps wake up, serving as fuel;
`none` means the fuel ran out while still blocked (the Python loop
would keep polling). -/
def wfqLoop (cfg : RLConfig) (est : Nat) :
    List Nat → Nat → RLState → Option (Nat × RLState)
  | [], now, s =>
      if blocked cfg est s then none else some (now, recordCall now est s)
  | t :: rest, now, s =>
      if blocked cfg est s then wfqLoop cfg est rest t (pollAdjust t s)
      else some (now, recordCall now est s)

/-- `RateLimiter.wait_for_quota` entered at wall time `now0`. -/
def wait_for_quota (cfg : RLConfig) (est : Nat) (times : List Nat)
    (now0 : Nat) (s0 : RLState) : Option (Nat × RLState) :=
  wfqLoop cfg est times now0 (initialAdjust now0 s0)

/-- Limiter configuration of the C9 counterexample: one request per
minute. -/
def c9Cfg : RLConfig := { requests_per_minute := 1, tokens_per_minute := 32000 }

/-- Rate limiter state of the C9 counterexample: one window entry from
time 0, last reset at time 55. -/
def c9State : RLState :=
  { requests_queue := [0], tokens_used := 0, last_reset := 55 }

/-- Counterexample to claim C9 as stated: entering `wait_for_quota` at
time 70, only 15 seconds after the last reset, the entry block does not
evict, so the first capacity check runs on a window still holding the
70-second-old entry from time 0 and blocks — even though the evicted
window is empty and would admit the call; with no poll wake-ups granted
the call therefore fails to record, refuting the invariant that stale
entries are evicted before every capacity check. -/
theorem C9_counterexample :
    (initialAdjust 70 c9State).requests_queue = [0] ∧
    60 ≤ 70 - 0 ∧
    blocked c9Cfg 1000 (initialAdjust 70 c9State) = true ∧
    evictQueue 70 (initialAdjust 70 c9State).requests_queue = [] ∧
    blocked c9Cfg 1000 { initialAdjust 70 c9State with
      requests_queue := evictQueue 70 (initialAdjust 70 c9State).requests_queue } = false ∧
    wait_for_quota c9Cfg 1000 [] 70 c9State = none := by decide

/-- Claim C9, amended: the token counter is reset to 0 whenever a full
minute has elapsed since the last reset, both on entry and at every
poll iteration, and every poll iteration evicts stale entries before
its capacity check; on entry, however, eviction happens only together
with that token reset, so the first capacity check may still see
entries older than 60 seconds (see `C9_counterexample`).  The call
timestamp is recorded and the token counter charged exactly when both
the request cap and the token cap admit the call. -/
theorem C9_rate_limiter :
    (∀ (now : Nat) (s : RLState),
      (60 ≤ now - s.last_reset →
        initialAdjust now s =
          { requests_queue := evictQueue now s.requests_queue,
            tokens_used := 0, last_reset := now }) ∧
      (now - s.last_reset < 60 → initialAdjust now s = s)) ∧
    (∀ (t : Nat) (s : RLState),
      (pollAdjust t s).requests_queue = evictQueue t s.requests_queue ∧
      (60 ≤ t - s.last_reset →
        (pollAdjust t s).tokens_used = 0 ∧ (pollAdjust t s).last_reset = t) ∧
      (t - s.last_reset < 60 →
        (pollAdjust t s).tokens_used = s.tokens_used ∧
        (pollAdjust t s).last_reset = s.last_reset)) ∧
    (∀ (cfg : RLConfig) (est : Nat) (times : List Nat) (now n : Nat)
        (s s2 : RLState),
      wfqLoop cfg est times now s = some (n, s2) →
      ∃ s1 : RLState, blocked cfg est s1 = false ∧
        s2 = recordCall n est s1 ∧
        s1.requests_queue.length < cfg.requests_per_minute ∧
        s1.tokens_used + est ≤ cfg.tokens_per_minute ∧
        s2.requests_queue = s1.requests_queue ++ [n] ∧
        s2.tokens_used = s1.tokens_used + est) := by
  refine ⟨?_, ?_, ?_⟩
  · intro now s
    constructor
    · intro h
      unfold initialAdjust
      rw [if_pos h]
    · intro h
      unfold initialAdjust
      rw [if_neg (by omega)]
  · intro t s
    refine ⟨?_, ?_, ?_⟩
    · unfold pollAdjust
      by_cases h : 60 ≤ t - s.last_reset
      · rw [if_pos h]
      · rw [if_neg h]
    · intro h
      unfold pollAdjust
      rw [if_pos h]
      exact ⟨rfl, rfl⟩
    · intro h
      unfold pollAdjust
      rw [if_neg (by omega)]
      exact ⟨rfl, rfl⟩
  · intro cfg est times
    induction times with
    | nil =>
        intro now n s s2 h
        rw [wfqLoop] at h
        by_cases hb : blocked cfg est s = true
        · rw [if_pos hb] at h
          exact absurd h (by simp)
        · rw [if_neg hb] at h
          simp only [Option.some.injEq, Prod.mk.injEq] at h
          refine ⟨s, by simpa using hb, ?_, ?_, ?_, ?_, ?_⟩
          · rw [← h.1, ← h.2]
          · have := hb
            unfold blocked at this
            simp at this
            omega
          · have := hb
            unfold blocked at this
            simp at this
            omega
          · rw [← h.1, ← h.2]
            rfl
          · rw [← h.2]
            rfl
    | cons t rest ih =>
        intro now n s s2 h
        rw [wfqLoop] at h
        by_cases hb : blocked cfg est s = true
        · rw [if_pos hb] at h
          exact ih t n (pollAdjust t s) s2 h
        · rw [if_neg hb] at h
          simp only [Option.some.injEq, Prod.mk.injEq] at h
          refine ⟨s, by simpa using hb, ?_, ?_, ?_, ?_, ?_⟩
          · rw [← h.1, ← h.2]
          · have := hb
            unfold blocked at this
            simp at this
            omega
          · have := hb
            unfold blocked at this
            simp at this
            omega
          · rw [← h.1, ← h.2]
            rfl
          · rw [← h.2]
            rfl

/-- A rate limiter state with a free window at time 100. -/
def c9Start : RLState :=
  { requests_queue := [], tokens_used := 0, last_reset := 100 }

/-- The state after the call at time 100 records itself. -/
def c9Done : RLState :=
  { requests_queue := [100], tokens_used := 1000, last_reset := 100 }

/-- Witness for the amended claim C9: an unblocked call at time 100
records its timestamp and charges its estimated cost. -/
theorem C9_witness :
    ∃ s1 : RLState,
      blocked { requests_per_minute := 15, tokens_per_minute := 32000 }
        1000 s1 = false ∧
      c9Done = recordCall 100 1000 s1 ∧
      s1.requests_queue.length < 15 ∧
      s1.tokens_used + 1000 ≤ 32000 ∧
      c9Done.requests_queue = s1.requests_queue ++ [100] ∧
      c9Done.tokens_used = s1.tokens_used + 1000 :=
  C9_rate_limiter.2.2 { requests_per_minute := 15, tokens_per_minute := 32000 }
    1000 [] 100 100 c9Start c9Done (by decide)

end TTT
